import Mathlib

/-!
# DesVault storage node — verification of the sharded storage engine

Shallow embedding of the storage core of the `desvault-storage-node`
repository (Go).  Bytes are modelled as `Nat` (values `0..255`), byte
strings as `List Nat`, Go `error` returns as `Except String`.

The embedded functions mirror:
* `storage` package, shard pipeline (`SplitFileIntoShards`,
  `UploadShardToIPFS`, `UploadFileWithMetadata`, `DownloadShardFromIPFS`,
  `DownloadFile`);
* `storage/crypto.go` (`EncryptData`, `DecryptData`);
* the `/upload` HTTP handlers of the `api` package and of the CLI's
  embedded API server (`cli.go`).

External collaborators (the Go standard library's AES-GCM object, the
IPFS daemon, the local file system) are passed in as explicit
parameters/state so the engine's control flow can be analysed.
-/

/-! ## SHA-256 (executable model of `crypto/sha256.Sum256`, FIPS 180-4) -/

/-- Truncation to a 32-bit word. -/
def w32 (n : Nat) : Nat := n % 4294967296

/-- Right rotation of a 32-bit word by `n` bits. -/
def rotr32 (n x : Nat) : Nat := w32 ((x >>> n) ||| (x <<< (32 - n)))

/-- SHA-256 `Ch` function. -/
def shaCh (x y z : Nat) : Nat := (x &&& y) ^^^ ((x ^^^ 4294967295) &&& z)

/-- SHA-256 `Maj` function. -/
def shaMaj (x y z : Nat) : Nat := (x &&& y) ^^^ (x &&& z) ^^^ (y &&& z)

/-- SHA-256 big sigma 0. -/
def bsig0 (x : Nat) : Nat := rotr32 2 x ^^^ rotr32 13 x ^^^ rotr32 22 x

/-- SHA-256 big sigma 1. -/
def bsig1 (x : Nat) : Nat := rotr32 6 x ^^^ rotr32 11 x ^^^ rotr32 25 x

/-- SHA-256 small sigma 0. -/
def ssig0 (x : Nat) : Nat := rotr32 7 x ^^^ rotr32 18 x ^^^ (x >>> 3)

/-- SHA-256 small sigma 1. -/
def ssig1 (x : Nat) : Nat := rotr32 17 x ^^^ rotr32 19 x ^^^ (x >>> 10)

/-- The 64 SHA-256 round constants. -/
def shaK : List Nat :=
  [1116352408, 1899447441, 3049323471, 3921009573, 961987163, 1508970993,
   2453635748, 2870763221, 3624381080, 310598401, 607225278, 1426881987,
   1925078388, 2162078206, 2614888103, 3248222580, 3835390401, 4022224774,
   264347078, 604807628, 770255983, 1249150122, 1555081692, 1996064986,
   2554220882, 2821834349, 2952996808, 3210313671, 3336571891, 3584528711,
   113926993, 338241895, 666307205, 773529912, 1294757372, 1396182291,
   1695183700, 1986661051, 2177026350, 2456956037, 2730485921, 2820302411,
   3259730800, 3345764771, 3516065817, 3600352804, 4094571909, 275423344,
   430227734, 506948616, 659060556, 883997877, 958139571, 1322822218,
   1537002063, 1747873779, 1955562222, 2024104815, 2227730452, 2361852424,
   2428436474, 2756734187, 3204031479, 3329325298]

/-- The eight 32-bit words of the SHA-256 running hash. -/
structure Hash8 where
  a : Nat
  b : Nat
  c : Nat
  d : Nat
  e : Nat
  f : Nat
  g : Nat
  h : Nat

/-- SHA-256 initial hash value. -/
def shaInit : Hash8 :=
  ⟨1779033703, 3144134277, 1013904242, 2773480762,
   1359893119, 2600822924, 528734635, 1541459225⟩

/-- Big-endian bytes of a 64-bit length field. -/
def be64 (n : Nat) : List Nat :=
  [n / 72057594037927936 % 256, n / 281474976710656 % 256,
   n / 1099511627776 % 256, n / 4294967296 % 256,
   n / 16777216 % 256, n / 65536 % 256, n / 256 % 256, n % 256]

/-- Big-endian bytes of a 32-bit word. -/
def be32 (w : Nat) : List Nat :=
  [w / 16777216 % 256, w / 65536 % 256, w / 256 % 256, w % 256]

/-- Groups of four big-endian bytes into 32-bit words. -/
def bytesToWords : List Nat → List Nat
  | b0 :: b1 :: b2 :: b3 :: rest =>
      (((b0 * 256 + b1) * 256 + b2) * 256 + b3) :: bytesToWords rest
  | _ => []

/-- Extends the 16-word message schedule by `n` further words. -/
def scheduleExtend : List Nat → Nat → List Nat
  | ws, 0 => ws
  | ws, n + 1 =>
      let L := ws.length
      let nw := w32 (ssig1 (ws.getD (L - 2) 0) + ws.getD (L - 7) 0 +
                     ssig0 (ws.getD (L - 15) 0) + ws.getD (L - 16) 0)
      scheduleExtend (ws ++ [nw]) n

/-- One SHA-256 round: absorbs one constant/schedule-word pair. -/
def shaRound (st : Hash8) (kw : Nat × Nat) : Hash8 :=
  let t1 := w32 (st.h + bsig1 st.e + shaCh st.e st.f st.g + kw.1 + kw.2)
  let t2 := w32 (bsig0 st.a + shaMaj st.a st.b st.c)
  ⟨w32 (t1 + t2), st.a, st.b, st.c, w32 (st.d + t1), st.e, st.f, st.g⟩

/-- SHA-256 compression of one 64-byte block. -/
def shaCompress (st : Hash8) (block : List Nat) : Hash8 :=
  let ws := scheduleExtend (bytesToWords block) 48
  let r := (shaK.zip ws).foldl shaRound st
  ⟨w32 (st.a + r.a), w32 (st.b + r.b), w32 (st.c + r.c), w32 (st.d + r.d),
   w32 (st.e + r.e), w32 (st.f + r.f), w32 (st.g + r.g), w32 (st.h + r.h)⟩

/-- Processes `fuel` consecutive 64-byte blocks. -/
def shaBlocks : Nat → List Nat → Hash8 → Hash8
  | 0, _, st => st
  | n + 1, msg, st => shaBlocks n (msg.drop 64) (shaCompress st (msg.take 64))

/-- SHA-256 padding: `0x80`, zeros to 56 mod 64, then the bit length. -/
def shaPad (msg : List Nat) : List Nat :=
  let L := msg.length
  let z := (119 - L % 64) % 64
  msg ++ 128 :: (List.replicate z 0 ++ be64 (8 * L))

/-- SHA-256 digest of a byte string, as 32 bytes. -/
def sha256 (msg : List Nat) : List Nat :=
  let padded := shaPad msg
  let fin := shaBlocks (padded.length / 64) padded shaInit
  be32 fin.a ++ be32 fin.b ++ be32 fin.c ++ be32 fin.d ++
  be32 fin.e ++ be32 fin.f ++ be32 fin.g ++ be32 fin.h

theorem sha256_length (msg : List Nat) : (sha256 msg).length = 32 := by
  simp [sha256, be32]

/-! ## Hex encoding (model of Go `encoding/hex.EncodeToString`) -/

/-- Lower-case hex digit for a value `0..15`. -/
def hexDigitChar (n : Nat) : Char :=
  if n < 10 then Char.ofNat (48 + n) else Char.ofNat (87 + n)

/-- Characters of the hex encoding: two digits per byte, high nibble first. -/
def hexChars : List Nat → List Char
  | [] => []
  | b :: rest => hexDigitChar (b / 16) :: hexDigitChar (b % 16) :: hexChars rest

/-- `hex.EncodeToString`: the hex string of a byte slice. -/
def hexEncode (bs : List Nat) : String := ⟨hexChars bs⟩

theorem hexChars_length (bs : List Nat) : (hexChars bs).length = 2 * bs.length := by
  induction bs with
  | nil => simp [hexChars]
  | cons b rest ih => simp [hexChars, ih]; ring

theorem hexEncode_length (bs : List Nat) : (hexEncode bs).length = 2 * bs.length := by
  simp [hexEncode, String.length, hexChars_length]

theorem hexChars_take (bs : List Nat) (n : Nat) :
    hexChars (bs.take n) = (hexChars bs).take (2 * n) := by
  induction bs generalizing n with
  | nil => simp [hexChars]
  | cons b rest ih =>
      cases n with
      | zero => simp [hexChars]
      | succ m =>
          simp only [List.take_succ_cons, hexChars, ih]
          have : 2 * (m + 1) = (2 * m) + 1 + 1 := by ring
          rw [this, List.take_succ_cons, List.take_succ_cons]

/-! ## Fragmenter (`storage.SplitFileIntoShards`) -/

/-- A shard of a file (Go `storage.Shard`).  `ID` is the hex SHA-256 of the
plaintext, `Data` the shard bytes (raw before upload, encrypted after),
`CID` the IPFS content address once uploaded. -/
structure Shard where
  ID : String
  Data : List Nat
  CID : String := ""
  Copies : List String := []
deriving Repr, DecidableEq

/-- The fixed shard count of `SplitFileIntoShards`. -/
def numShards : Nat := 5

/-- The per-shard read sizes the Go loop requests for a file of `fileSize`
bytes: `base = fileSize / 5` for shards `0..3`, `base + remainder` for the
last shard. -/
def shardSizes (fileSize : Nat) : List Nat :=
  let base := fileSize / numShards
  let remainder := fileSize % numShards
  [base, base, base, base, base + remainder]

/-- The sequential-read loop of `SplitFileIntoShards`: each iteration reads
the requested number of bytes from the front of the remaining file
(`io.ReadFull` truncated at end of file, as `data = data[:n]` does) and
hashes the bytes read into the shard `ID`. -/
def splitLoop : List Nat → List Nat → List Shard
  | _, [] => []
  | file, s :: rest =>
      let data := file.take s
      { ID := hexEncode (sha256 data), Data := data } :: splitLoop (file.drop s) rest

/-- `storage.SplitFileIntoShards`: splits the file contents into 5 shards,
shards `0..3` of `fileSize / 5` bytes each and the last shard carrying the
remainder.  The file is modelled by its byte contents (the Go code reads
them from disk). -/
def SplitFileIntoShards (contents : List Nat) : List Shard :=
  splitLoop contents (shardSizes contents.length)

/-- The successive byte chunks the read loop extracts for the given sizes. -/
def chunksOf : List Nat → List Nat → List (List Nat)
  | _, [] => []
  | file, s :: rest => file.take s :: chunksOf (file.drop s) rest

theorem splitLoop_length (file : List Nat) (sizes : List Nat) :
    (splitLoop file sizes).length = sizes.length := by
  induction sizes generalizing file with
  | nil => simp [splitLoop]
  | cons s rest ih => simp [splitLoop, ih]

theorem splitLoop_data (file : List Nat) (sizes : List Nat) :
    (splitLoop file sizes).map Shard.Data = chunksOf file sizes := by
  induction sizes generalizing file with
  | nil => simp [splitLoop, chunksOf]
  | cons s rest ih => simp [splitLoop, chunksOf, ih]

theorem splitLoop_id (file : List Nat) (sizes : List Nat) :
    ∀ sh ∈ splitLoop file sizes, sh.ID = hexEncode (sha256 sh.Data) := by
  induction sizes generalizing file with
  | nil => simp [splitLoop]
  | cons s rest ih =>
      intro sh hsh
      simp only [splitLoop, List.mem_cons] at hsh
      rcases hsh with h | h
      · subst h; rfl
      · exact ih _ sh h

theorem chunksOf_flatten (file : List Nat) (sizes : List Nat) :
    (chunksOf file sizes).flatten = file.take sizes.sum := by
  induction sizes generalizing file with
  | nil => simp [chunksOf]
  | cons s rest ih =>
      simp only [chunksOf, List.flatten_cons, ih, List.sum_cons]
      rw [List.take_add]

theorem chunksOf_lengths (file : List Nat) (sizes : List Nat)
    (hle : sizes.sum ≤ file.length) :
    (chunksOf file sizes).map List.length = sizes := by
  induction sizes generalizing file with
  | nil => simp [chunksOf]
  | cons s rest ih =>
      simp only [List.sum_cons] at hle
      have hs : s ≤ file.length := le_trans (Nat.le_add_right _ _) hle
      simp only [chunksOf, List.map_cons, List.length_take]
      rw [ih (file.drop s) (by simp [List.length_drop]; omega)]
      congr 1
      omega

theorem shardSizes_sum (S : Nat) : (shardSizes S).sum = S := by
  simp [shardSizes, numShards]
  omega

theorem splitFile_data_lengths (contents : List Nat) :
    (SplitFileIntoShards contents).map (fun sh => sh.Data.length) =
      shardSizes contents.length := by
  have h : (SplitFileIntoShards contents).map (fun sh => sh.Data.length) =
      ((SplitFileIntoShards contents).map Shard.Data).map List.length := by
    simp [List.map_map]
  rw [h, SplitFileIntoShards, splitLoop_data, chunksOf_lengths]
  rw [shardSizes_sum]

theorem splitFile_concat (contents : List Nat) :
    ((SplitFileIntoShards contents).map Shard.Data).flatten = contents := by
  rw [SplitFileIntoShards, splitLoop_data, chunksOf_flatten, shardSizes_sum,
    List.take_length]

/-- C1: for every source file of size `S`, the five fragments' plaintexts
concatenated in index order equal the source bytes, fragments `0..3` each
have `S / 5` bytes, the last has `S / 5 + S % 5` bytes, and the lengths sum
to `S`. -/
theorem fragmenter_preserves_source_and_sizes (contents : List Nat) :
    ((SplitFileIntoShards contents).map Shard.Data).flatten = contents ∧
    (SplitFileIntoShards contents).map (fun sh => sh.Data.length) =
      [contents.length / 5, contents.length / 5, contents.length / 5,
       contents.length / 5, contents.length / 5 + contents.length % 5] ∧
    ((SplitFileIntoShards contents).map (fun sh => sh.Data.length)).sum =
      contents.length := by
  refine ⟨splitFile_concat contents, ?_, ?_⟩
  · rw [splitFile_data_lengths]; simp [shardSizes, numShards]
  · rw [splitFile_data_lengths, shardSizes_sum]

/-- C9: the fragmenter always returns exactly 5 shards regardless of file
size — never fewer; a 0-byte file is not rejected and yields 5 empty
shards; every shard's `ID` is the 64-character hex encoding of the SHA-256
hash of its (possibly empty) plaintext. -/
theorem fragmenter_always_five_shards (contents : List Nat) :
    (SplitFileIntoShards contents).length = 5 ∧
    (SplitFileIntoShards contents).map Shard.ID =
      (SplitFileIntoShards contents).map (fun sh => hexEncode (sha256 sh.Data)) ∧
    (SplitFileIntoShards contents).map (fun sh => sh.ID.length) =
      [64, 64, 64, 64, 64] ∧
    (contents = [] →
      (SplitFileIntoShards contents).map Shard.Data = [[], [], [], [], []]) := by
  have hlen : (SplitFileIntoShards contents).length = 5 := by
    rw [SplitFileIntoShards, splitLoop_length]; rfl
  refine ⟨hlen, ?_, ?_, ?_⟩
  · exact List.map_congr_left (splitLoop_id _ _)
  · have h64 : (SplitFileIntoShards contents).map (fun sh => sh.ID.length) =
        (SplitFileIntoShards contents).map (fun _ => 64) :=
      List.map_congr_left (fun sh hsh => by
        rw [splitLoop_id _ _ sh hsh, hexEncode_length, sha256_length])
    rw [h64, List.map_const', hlen]
    rfl
  · intro hnil
    subst hnil
    rw [SplitFileIntoShards, splitLoop_data]
    rfl

/-- C9 witness: concrete evaluation at the empty file. -/
theorem fragmenter_always_five_shards_witness :
    (SplitFileIntoShards []).length = 5 ∧
    (SplitFileIntoShards []).map Shard.Data = [[], [], [], [], []] :=
  ⟨(fragmenter_always_five_shards []).1,
   (fragmenter_always_five_shards []).2.2.2 rfl⟩

/-- C6 counterexample: for the 2-byte file `[10, 20]` the fragmenter
produces fragment lengths `[0, 0, 0, 0, 2]` — the first `S` fragments do
NOT carry one byte each (`[1, 1, 0, 0, 0]`), and the fragment count is not
reduced to `max 1 S = 2`. -/
theorem small_file_split_counterexample :
    (SplitFileIntoShards [10, 20]).map (fun sh => sh.Data.length) =
      [0, 0, 0, 0, 2] ∧
    (SplitFileIntoShards [10, 20]).map (fun sh => sh.Data.length) ≠
      [1, 1, 0, 0, 0] ∧
    (SplitFileIntoShards [10, 20]).length ≠ max 1 2 := by
  have h := splitFile_data_lengths [10, 20]
  have hs : shardSizes ([10, 20] : List Nat).length = [0, 0, 0, 0, 2] := rfl
  rw [hs] at h
  refine ⟨h, by rw [h]; decide, ?_⟩
  rw [SplitFileIntoShards, splitLoop_length]
  decide

/-- C6 amended: for every source file with `0 < S < 5` the fragmenter
still produces 5 fragments, but the first four are empty and the last
carries all `S` bytes; the file nevertheless round-trips byte-for-byte. -/
theorem small_file_split_amended (contents : List Nat)
    (_h1 : 0 < contents.length) (h2 : contents.length < 5) :
    (SplitFileIntoShards contents).length = 5 ∧
    (SplitFileIntoShards contents).map (fun sh => sh.Data.length) =
      [0, 0, 0, 0, contents.length] ∧
    ((SplitFileIntoShards contents).map Shard.Data).flatten = contents := by
  have hd := splitFile_data_lengths contents
  have hs : shardSizes contents.length = [0, 0, 0, 0, contents.length] := by
    simp only [shardSizes, numShards]
    have hdiv : contents.length / 5 = 0 := Nat.div_eq_of_lt h2
    have hmod : contents.length % 5 = contents.length := Nat.mod_eq_of_lt h2
    rw [hdiv, hmod, Nat.zero_add]
  refine ⟨?_, by rw [hd, hs], splitFile_concat contents⟩
  rw [SplitFileIntoShards, splitLoop_length]
  rfl

/-- C6 amended, witness at the concrete 2-byte file `[10, 20]`. -/
theorem small_file_split_amended_witness :
    0 < ([10, 20] : List Nat).length ∧ ([10, 20] : List Nat).length < 5 ∧
    ((SplitFileIntoShards [10, 20]).length = 5 ∧
     (SplitFileIntoShards [10, 20]).map (fun sh => sh.Data.length) =
       [0, 0, 0, 0, ([10, 20] : List Nat).length] ∧
     ((SplitFileIntoShards [10, 20]).map Shard.Data).flatten = [10, 20]) :=
  ⟨by decide, by decide,
   small_file_split_amended [10, 20] (by decide) (by decide)⟩

/-! ## AEAD codec (`storage/crypto.go`)

`EncryptData`/`DecryptData` call the Go standard library's AES-GCM object
(`cipher.NewGCM(aes.NewCipher(key))`).  That object is external library
code; it is modelled as an explicit parameter carrying its nonce size and
its `Seal`/`Open` routines.  The fresh random nonce drawn inside
`EncryptData` is likewise passed in explicitly. -/

/-- The AES-GCM AEAD object returned by `cipher.NewGCM(aes.NewCipher key)`:
`nonceSize` is `gcm.NonceSize()` (12 for GCM), `Seal nonce p` the
ciphertext-plus-tag of `gcm.Seal(nil, nonce, p, nil)`, and `Open nonce c`
the result of `gcm.Open(nil, nonce, c, nil)` (`none` on authentication
failure). -/
structure Gcm where
  nonceSize : Nat
  Seal : List Nat → List Nat → List Nat
  Open : List Nat → List Nat → Option (List Nat)

/-- The hard-coded 32-byte AES-256 key of the `storage` package
(`var encryptionKey = []byte("0123456789abcdef0123456789abcdef")`). -/
def encryptionKey : List Nat :=
  "0123456789abcdef0123456789abcdef".toList.map Char.toNat

/-- The key-length guard shared by `EncryptData` and `DecryptData`. -/
def validKeyLen (key : List Nat) : Bool :=
  key.length == 16 || key.length == 24 || key.length == 32

/-- `storage.EncryptData`: rejects keys that are not 16/24/32 bytes, then
returns the fresh random nonce prepended to `gcm.Seal`'s output. -/
def EncryptData (plaintext key : List Nat) (gcm : Gcm) (nonce : List Nat) :
    Except String (List Nat) :=
  if !validKeyLen key then
    .error ("invalid key length: " ++ toString key.length ++
      " bytes (must be 16, 24, or 32)")
  else
    .ok (nonce ++ gcm.Seal nonce plaintext)

/-- `storage.DecryptData`: rejects keys that are not 16/24/32 bytes,
rejects inputs shorter than the nonce, splits `data` into
`data[:nonceSize]` and `data[nonceSize:]`, and opens. -/
def DecryptData (data key : List Nat) (gcm : Gcm) : Except String (List Nat) :=
  if !validKeyLen key then
    .error ("invalid key length: " ++ toString key.length ++
      " bytes (must be 16, 24, or 32)")
  else if data.length < gcm.nonceSize then
    .error "encrypted data too short"
  else
    match gcm.Open (data.take gcm.nonceSize) (data.drop gcm.nonceSize) with
    | some plaintext => .ok plaintext
    | none => .error "failed to decrypt data"

/-- C2: for every 16/24/32-byte key and every plaintext, decrypting the
output of encryption with the same key returns the plaintext, given the
AES-GCM library's round-trip contract (`Open` inverts `Seal`) for the
nonce that was drawn. -/
theorem decrypt_encrypt_roundtrip (plaintext key : List Nat) (gcm : Gcm)
    (nonce : List Nat) (hkey : validKeyLen key = true)
    (hnonce : nonce.length = gcm.nonceSize)
    (hgcm : gcm.Open nonce (gcm.Seal nonce plaintext) = some plaintext) :
    (EncryptData plaintext key gcm nonce).bind
      (fun c => DecryptData c key gcm) = .ok plaintext := by
  have henc : EncryptData plaintext key gcm nonce =
      .ok (nonce ++ gcm.Seal nonce plaintext) := by
    rw [EncryptData, if_neg (by simp [hkey])]
  have hlen : ¬ ((nonce ++ gcm.Seal nonce plaintext).length < gcm.nonceSize) := by
    simp [List.length_append, hnonce]
  have htake : (nonce ++ gcm.Seal nonce plaintext).take gcm.nonceSize = nonce := by
    rw [← hnonce, List.take_left]
  have hdrop : (nonce ++ gcm.Seal nonce plaintext).drop gcm.nonceSize =
      gcm.Seal nonce plaintext := by
    rw [← hnonce, List.drop_left]
  rw [henc]
  show DecryptData (nonce ++ gcm.Seal nonce plaintext) key gcm = .ok plaintext
  rw [DecryptData, if_neg (by simp [hkey]), if_neg hlen, htake, hdrop, hgcm]

/-- A concrete stand-in AEAD instance used by witnesses: 12-byte nonce,
`seal` appends a 16-byte zero tag, `opn` strips it. -/
def gcmWitness : Gcm where
  nonceSize := 12
  Seal := fun _ p => p ++ List.replicate 16 0
  Open := fun _ c => if c.length < 16 then none else some (c.take (c.length - 16))

/-- C2 witness: concrete round trip through `EncryptData`/`DecryptData`
with a 16-byte key, a 12-byte nonce and the plaintext `[1, 2, 3]`. -/
theorem decrypt_encrypt_roundtrip_witness :
    validKeyLen (List.replicate 16 0) = true ∧
    (List.replicate 12 7 : List Nat).length = gcmWitness.nonceSize ∧
    gcmWitness.Open (List.replicate 12 7)
      (gcmWitness.Seal (List.replicate 12 7) [1, 2, 3]) = some [1, 2, 3] ∧
    (EncryptData [1, 2, 3] (List.replicate 16 0) gcmWitness
        (List.replicate 12 7)).bind
      (fun c => DecryptData c (List.replicate 16 0) gcmWitness) = .ok [1, 2, 3] :=
  ⟨by decide, by decide, by decide,
   decrypt_encrypt_roundtrip [1, 2, 3] (List.replicate 16 0) gcmWitness
     (List.replicate 12 7) (by decide) (by decide) (by decide)⟩

/-- C10: for every 16/24/32-byte key and every input shorter than the
GCM nonce size (12 bytes), `DecryptData` returns the
"encrypted data too short" error instead of splitting off a nonce. -/
theorem decrypt_short_input_rejected (data key : List Nat) (gcm : Gcm)
    (hkey : validKeyLen key = true) (hgcm : gcm.nonceSize = 12)
    (hshort : data.length < 12) :
    DecryptData data key gcm = .error "encrypted data too short" := by
  rw [DecryptData]
  simp only [hkey, Bool.not_true, Bool.false_eq_true, if_false]
  rw [if_pos (by rw [hgcm]; exact hshort)]

/-- C10 witness: the concrete 3-byte input `[1, 2, 3]` is rejected. -/
theorem decrypt_short_input_rejected_witness :
    validKeyLen encryptionKey = true ∧ gcmWitness.nonceSize = 12 ∧
    ([1, 2, 3] : List Nat).length < 12 ∧
    DecryptData [1, 2, 3] encryptionKey gcmWitness =
      .error "encrypted data too short" :=
  ⟨by decide, by decide, by decide,
   decrypt_short_input_rejected [1, 2, 3] encryptionKey gcmWitness
     (by decide) (by decide) (by decide)⟩

/-! ## Upload pipeline (`storage.UploadShardToIPFS`,
`storage.UploadFileWithMetadata`) -/

/-- The IPFS daemon as seen through `sh.Add`: bytes in, content address
out (or a transport error). -/
structure UploadEnv where
  ipfsAdd : List Nat → Except String String

/-- `storage.UploadShardToIPFS`: encrypts the shard's data under the
hard-coded package key, replaces `shard.Data` with the encrypted bytes,
adds those bytes to IPFS to obtain the CID, and writes the same encrypted
bytes as the permanent local copy keyed by `shard.ID` (the `.bin` file).
The result carries the updated shard and the `(key, bytes)` pair written
to the local store. -/
def UploadShardToIPFS (shard : Shard) (gcm : Gcm) (nonce : List Nat)
    (env : UploadEnv) : Except String (Shard × (String × List Nat)) :=
  match EncryptData shard.Data encryptionKey gcm nonce with
  | .error e => .error ("failed to encrypt shard data: " ++ e)
  | .ok enc =>
      match env.ipfsAdd enc with
      | .error e => .error ("failed to add shard to IPFS: " ++ e)
      | .ok cid =>
          .ok ({ shard with Data := enc, CID := cid }, (shard.ID, enc))

/-- Bytes of a Go string (the strings involved are ASCII). -/
def strBytes (s : String) : List Nat := s.toList.map Char.toNat

/-- The `concatenated += shard.CID` loop of `UploadFileWithMetadata`. -/
def concatCIDs (shards : List Shard) : String :=
  shards.foldl (fun acc sh => acc ++ sh.CID) ""

/-- The global CID computed by `UploadFileWithMetadata`:
`hex.EncodeToString(sha256.Sum256(concatenated)[:16])`. -/
def globalCIDOf (shards : List Shard) : String :=
  hexEncode ((sha256 (strBytes (concatCIDs shards))).take 16)

/-- Go `storage.FileMetadata`. -/
structure FileMetadata where
  FileName : String
  FileSize : Nat
  CID : String
  Shards : List Shard

/-- The per-shard upload loop of `UploadFileWithMetadata`; `nonces` feeds
each call's fresh random nonce. -/
def uploadShards : List Shard → List (List Nat) → Gcm → UploadEnv →
    Except String (List Shard × List (String × List Nat))
  | [], _, _, _ => .ok ([], [])
  | sh :: rest, nonces, gcm, env =>
      match UploadShardToIPFS sh gcm (nonces.headD []) env with
      | .error e => .error e
      | .ok (sh', w) =>
          match uploadShards rest nonces.tail gcm env with
          | .error e => .error e
          | .ok (rs, ws) => .ok (sh' :: rs, w :: ws)

/-- `storage.UploadFileWithMetadata`: split, upload every shard, compute
the global CID over the shard CIDs, return the metadata (plus the local
writes for analysis). -/
def UploadFileWithMetadata (fileName : String) (contents : List Nat)
    (nonces : List (List Nat)) (gcm : Gcm) (env : UploadEnv) :
    Except String (FileMetadata × List (String × List Nat)) :=
  match uploadShards (SplitFileIntoShards contents) nonces gcm env with
  | .error e => .error e
  | .ok (shards, ws) =>
      .ok ({ FileName := fileName, FileSize := contents.length,
             CID := globalCIDOf shards, Shards := shards }, ws)

/-! ### C3 — the wire form of stored ciphertext -/

/-- A byte that is a lower-case hex digit character. -/
def isHexDigitByte (b : Nat) : Bool :=
  (48 ≤ b && b ≤ 57) || (97 ≤ b && b ≤ 102)

/-- Modelled from the spec: necessary conditions for the framed textual
wire form `"<version>:<hex(nonce || ciphertext_and_tag)>"` — the bytes
contain a `:` separator (0x3a) with a non-empty version label before it
and an even-length run of hex-digit characters after it. -/
def specFramedWire (bs : List Nat) : Bool :=
  match bs.findIdx? (· == 58) with
  | none => false
  | some i =>
      decide (0 < i) && (bs.drop (i + 1)).all isHexDigitByte &&
      decide ((bs.drop (i + 1)).length % 2 = 0)

/-- C3 counterexample: a concrete shard whose stored encrypted bytes are
not in the framed textual form — they are raw binary `nonce || ct` with no
separator, no version label and no hex encoding. -/
theorem stored_bytes_not_framed_counterexample :
    UploadShardToIPFS ⟨"abc", [], "", []⟩ gcmWitness (List.replicate 12 0)
        ⟨fun _ => .ok "QmX"⟩ =
      .ok (⟨"abc", List.replicate 12 0 ++ List.replicate 16 0, "QmX", []⟩,
           ("abc", List.replicate 12 0 ++ List.replicate 16 0)) ∧
    specFramedWire (List.replicate 12 0 ++ List.replicate 16 0) = false := by
  constructor
  · rfl
  · decide

/-- C3 amended: for every shard, key-valid GCM instance and nonce, the
bytes stored (written to the local `.bin` file and added to IPFS) are the
raw binary concatenation `nonce || gcm.Seal(nonce, plaintext)` — no
version label, separator or hex encoding is applied, so no key version is
recoverable from the stored bytes (the package uses a single hard-coded
key). -/
theorem stored_bytes_are_raw_nonce_ct (shard : Shard) (gcm : Gcm)
    (nonce : List Nat) (env : UploadEnv) (sh' : Shard) (lk : String)
    (lb : List Nat)
    (hok : UploadShardToIPFS shard gcm nonce env = .ok (sh', (lk, lb))) :
    lb = nonce ++ gcm.Seal nonce shard.Data ∧ sh'.Data = lb ∧
    lk = shard.ID ∧ env.ipfsAdd lb = .ok sh'.CID := by
  have hkey : validKeyLen encryptionKey = true := by decide
  cases hadd : env.ipfsAdd (nonce ++ gcm.Seal nonce shard.Data) with
  | error e =>
      simp only [UploadShardToIPFS, EncryptData, hkey, Bool.not_true,
        Bool.false_eq_true, if_false, hadd] at hok
      exact absurd hok (by simp)
  | ok cid =>
      simp only [UploadShardToIPFS, EncryptData, hkey, Bool.not_true,
        Bool.false_eq_true, if_false, hadd, Except.ok.injEq,
        Prod.mk.injEq] at hok
      obtain ⟨hsh, hlk, hlb⟩ := hok
      subst hsh hlk hlb
      exact ⟨rfl, rfl, rfl, hadd⟩

/-- C3 amended, witness: concrete run of the upload step; the stored bytes
equal the raw nonce-plus-ciphertext concatenation. -/
theorem stored_bytes_are_raw_nonce_ct_witness :
    UploadShardToIPFS ⟨"id1", [5], "", []⟩ gcmWitness (List.replicate 12 1)
        ⟨fun _ => .ok "QmY"⟩ =
      .ok (⟨"id1", List.replicate 12 1 ++ ([5] ++ List.replicate 16 0), "QmY", []⟩,
           ("id1", List.replicate 12 1 ++ ([5] ++ List.replicate 16 0))) ∧
    (List.replicate 12 1 ++ ([5] ++ List.replicate 16 0) : List Nat) =
      List.replicate 12 1 ++ gcmWitness.Seal (List.replicate 12 1) [5] :=
  ⟨rfl,
   (stored_bytes_are_raw_nonce_ct ⟨"id1", [5], "", []⟩ gcmWitness
     (List.replicate 12 1) ⟨fun _ => .ok "QmY"⟩
     ⟨"id1", List.replicate 12 1 ++ ([5] ++ List.replicate 16 0), "QmY", []⟩
     "id1" (List.replicate 12 1 ++ ([5] ++ List.replicate 16 0)) rfl).1⟩

/-! ### C8 — the file-level fingerprint -/

theorem globalCID_length (shards : List Shard) :
    (globalCIDOf shards).length = 32 := by
  rw [globalCIDOf, hexEncode_length, List.length_take, sha256_length]
  decide

/-- C8 counterexample: at a concrete one-shard descriptor the file-level
fingerprint has 32 hex characters, not 16. -/
theorem global_cid_not_16_hex_counterexample :
    (globalCIDOf [⟨"a", [], "QmFoo", []⟩]).length = 32 ∧
    (globalCIDOf [⟨"a", [], "QmFoo", []⟩]).length ≠ 16 := by
  have h := globalCID_length [⟨"a", [], "QmFoo", []⟩]
  exact ⟨h, by rw [h]; decide⟩

/-- C8 amended: for every successful upload, the file-level fingerprint is
the hex encoding of the first 16 BYTES of the SHA-256 hash of the
concatenated textual ciphertext addresses in index order — a string of 32
hex characters, equal to the first 32 hex characters of the full hash. -/
theorem global_cid_is_32_hex_of_hash (shards : List Shard) :
    globalCIDOf shards =
      hexEncode ((sha256 (strBytes (concatCIDs shards))).take 16) ∧
    (globalCIDOf shards).length = 32 ∧
    (globalCIDOf shards).toList =
      (hexEncode (sha256 (strBytes (concatCIDs shards)))).toList.take 32 := by
  refine ⟨rfl, globalCID_length shards, ?_⟩
  show hexChars ((sha256 (strBytes (concatCIDs shards))).take 16) =
    (hexChars (sha256 (strBytes (concatCIDs shards)))).take 32
  rw [hexChars_take]

/-! ## Download pipeline (`storage.DownloadShardFromIPFS`,
`storage.DownloadFile`) -/

/-- The state the download pipeline can read: the IPFS daemon reached
through `sh.Cat` (remote fetch by CID) and the permanent local copies
written at upload time, keyed by shard `ID` (the `.bin` files in the
storage directory). -/
structure DownloadEnv where
  ipfsCat : String → Except String (List Nat)
  localGet : String → Option (List Nat)

/-- `storage.DownloadShardFromIPFS`: fetches the encrypted bytes for a CID
via `sh.Cat`, errors on transport failure or empty data, then decrypts
with the hard-coded key.  It consults only the remote store — `localGet`
is never read. -/
def DownloadShardFromIPFS (cid : String) (gcm : Gcm) (env : DownloadEnv) :
    Except String (List Nat) :=
  match env.ipfsCat cid with
  | .error e => .error ("failed to cat CID " ++ cid ++ ": " ++ e)
  | .ok encryptedData =>
      if encryptedData.length == 0 then
        .error ("downloaded shard data is empty for CID " ++ cid)
      else
        match DecryptData encryptedData encryptionKey gcm with
        | .error e => .error ("failed to decrypt shard data: " ++ e)
        | .ok plainData => .ok plainData

/-- The shard loop of `storage.DownloadFile`: downloads each shard in
order, appending the decrypted bytes to the output file; on the first
failure it returns the error with what was already written. -/
def downloadLoop : List Shard → Gcm → DownloadEnv → List Nat →
    Except String Unit × List Nat
  | [], _, _, acc => (.ok (), acc)
  | sh :: rest, gcm, env, acc =>
      match DownloadShardFromIPFS sh.CID gcm env with
      | .error e => (.error e, acc)
      | .ok data => downloadLoop rest gcm env (acc ++ data)

/-- The output file as left on disk by `DownloadFile`. -/
structure OutFile where
  onDisk : Bool
  contents : List Nat
deriving Repr, DecidableEq

/-- `storage.DownloadFile`: creates the output file, then runs the shard
loop.  The Go function returns on the first error without removing the
file it created, so the file is on disk in every outcome. -/
def DownloadFile (shards : List Shard) (gcm : Gcm) (env : DownloadEnv) :
    Except String Unit × OutFile :=
  let r := downloadLoop shards gcm env []
  (r.1, { onDisk := true, contents := r.2 })

/-! ### C4 — no local fallback on remote fetch failure -/

/-- A concrete environment for the C4 scenario: the remote fetch always
fails, while the local store holds a decryptable encrypted copy of the
shard. -/
def c4Env : DownloadEnv where
  ipfsCat := fun _ => .error "connection refused"
  localGet := fun fid =>
    if fid == "id1" then some (List.replicate 12 0 ++ ([9] ++ List.replicate 16 0))
    else none

/-- C4 counterexample: the remote fetch of the only fragment fails while
its locally stored encrypted copy is present and decrypts fine — yet the
download aborts with the transport error instead of falling back. -/
theorem download_no_local_fallback_counterexample :
    c4Env.localGet "id1" =
      some (List.replicate 12 0 ++ ([9] ++ List.replicate 16 0)) ∧
    DecryptData (List.replicate 12 0 ++ ([9] ++ List.replicate 16 0))
      encryptionKey gcmWitness = .ok [9] ∧
    (DownloadFile [⟨"id1", [], "QmA", []⟩] gcmWitness c4Env).1 =
      .error "failed to cat CID QmA: connection refused" := by
  refine ⟨rfl, rfl, rfl⟩

theorem downloadLoop_ignores_localGet (shards : List Shard) (gcm : Gcm)
    (cat : String → Except String (List Nat))
    (lg lg' : String → Option (List Nat)) :
    ∀ acc, downloadLoop shards gcm ⟨cat, lg⟩ acc =
      downloadLoop shards gcm ⟨cat, lg'⟩ acc := by
  induction shards with
  | nil => intro acc; rfl
  | cons s rest ih =>
      intro acc
      rw [downloadLoop, downloadLoop]
      have hds : DownloadShardFromIPFS s.CID gcm ⟨cat, lg'⟩ =
          DownloadShardFromIPFS s.CID gcm ⟨cat, lg⟩ := rfl
      rw [hds]
      cases hds2 : DownloadShardFromIPFS s.CID gcm ⟨cat, lg⟩ with
      | error e => rfl
      | ok data => exact ih (acc ++ data)

/-- C4 amended: `DownloadShardFromIPFS` aborts as soon as the remote fetch
fails — the download result is independent of the local store, and a
remote failure on the first fragment makes the whole download fail with
that transport error even when `localGet` holds the fragment. -/
theorem download_ignores_local_store (shards : List Shard) (gcm : Gcm)
    (cat : String → Except String (List Nat))
    (lg lg' : String → Option (List Nat)) (s : Shard) (rest : List Shard)
    (e : String) (hcat : cat s.CID = .error e) :
    DownloadFile shards gcm ⟨cat, lg⟩ = DownloadFile shards gcm ⟨cat, lg'⟩ ∧
    (DownloadFile (s :: rest) gcm ⟨cat, lg⟩).1 =
      .error ("failed to cat CID " ++ s.CID ++ ": " ++ e) := by
  constructor
  · rw [DownloadFile, DownloadFile, downloadLoop_ignores_localGet shards gcm cat lg lg']
  · rw [DownloadFile]
    simp only [downloadLoop, DownloadShardFromIPFS, hcat]

/-- C4 amended, witness: concrete download against a failing remote. -/
theorem download_ignores_local_store_witness :
    ((fun _ => Except.error "connection refused" :
        String → Except String (List Nat)) "QmA" =
      .error "connection refused") ∧
    (DownloadFile [⟨"id1", [], "QmA", []⟩] gcmWitness
        ⟨fun _ => .error "connection refused", fun _ => none⟩).1 =
      .error ("failed to cat CID " ++ "QmA" ++ ": " ++ "connection refused") :=
  ⟨rfl,
   (download_ignores_local_store [] gcmWitness
     (fun _ => .error "connection refused") (fun _ => none) (fun _ => none)
     ⟨"id1", [], "QmA", []⟩ [] "connection refused" rfl).2⟩

/-! ### C5 — the partial output file on failure -/

/-- The decrypted bytes of the longest prefix of shards whose remote fetch
and decryption succeed — what the Go loop has already appended to the
output file when it stops. -/
def decryptedPrefix (shards : List Shard) (gcm : Gcm) (env : DownloadEnv) :
    List Nat :=
  match shards with
  | [] => []
  | s :: rest =>
      match DownloadShardFromIPFS s.CID gcm env with
      | .error _ => []
      | .ok d => d ++ decryptedPrefix rest gcm env

theorem downloadLoop_contents (shards : List Shard) (gcm : Gcm)
    (env : DownloadEnv) :
    ∀ acc, (downloadLoop shards gcm env acc).2 =
      acc ++ decryptedPrefix shards gcm env := by
  induction shards with
  | nil => intro acc; simp [downloadLoop, decryptedPrefix]
  | cons s rest ih =>
      intro acc
      rw [downloadLoop, decryptedPrefix]
      cases hds : DownloadShardFromIPFS s.CID gcm env with
      | error e => simp
      | ok data => rw [ih (acc ++ data), List.append_assoc]

/-- The environment of the C5 scenario: the first fragment's remote fetch
succeeds, the second fails. -/
def c5Env : DownloadEnv where
  ipfsCat := fun cid =>
    if cid == "QmA" then .ok (List.replicate 12 0 ++ ([7] ++ List.replicate 16 0))
    else .error "not found"
  localGet := fun _ => none

/-- C5 counterexample: a two-fragment download whose second remote fetch
fails returns the error while the partially written output file — already
holding the first fragment's plaintext — is still on disk. -/
theorem partial_output_not_deleted_counterexample :
    (DownloadFile [⟨"a", [], "QmA", []⟩, ⟨"b", [], "QmB", []⟩] gcmWitness
        c5Env).1 = .error ("failed to cat CID " ++ "QmB" ++ ": " ++ "not found") ∧
    (DownloadFile [⟨"a", [], "QmA", []⟩, ⟨"b", [], "QmB", []⟩] gcmWitness
        c5Env).2.onDisk = true ∧
    (DownloadFile [⟨"a", [], "QmA", []⟩, ⟨"b", [], "QmB", []⟩] gcmWitness
        c5Env).2.contents = [7] :=
  ⟨rfl, rfl, rfl⟩

/-- C5 amended: `DownloadFile` never deletes the output file it created —
in every outcome, success or failure, the file is left on disk holding
exactly the decrypted bytes of the fragments fetched before the stop. -/
theorem partial_output_left_on_disk (shards : List Shard) (gcm : Gcm)
    (env : DownloadEnv) :
    (DownloadFile shards gcm env).2.onDisk = true ∧
    (DownloadFile shards gcm env).2.contents =
      decryptedPrefix shards gcm env := by
  refine ⟨rfl, ?_⟩
  show (downloadLoop shards gcm env []).2 = _
  rw [downloadLoop_contents shards gcm env [], List.nil_append]

/-! ## The `/upload` HTTP handlers (C7)

`api/api.go`'s handler (the `api` package `main`) and `cli/cli.go`'s
handler (`startAPIServer`) share their control-flow shape; only the CLI
handler checks `file.Size > MaxFileSizeBytes` before doing any work.  A
request is modelled by the outcomes of its collaborator calls; the result
is the HTTP status together with whether `storage.UploadFileWithMetadata`
was invoked (i.e. whether fragments were encrypted and written). -/

/-- `cli.MaxFileSizeBytes = 524288000` (500 MB). -/
def MaxFileSizeBytes : Nat := 524288000

/-- One `/upload` request, by the outcomes of its collaborator calls. -/
structure UploadRequest where
  filePresent : Bool
  fileSize : Nat
  saveOk : Bool
  uploadOk : Bool
  convertOk : Bool
  dbOk : Bool

/-- The `api` package's `POST /upload` handler (api/api.go): form file,
save to temp, `UploadFileWithMetadata`, metadata conversion, DB insert —
with NO file-size check anywhere. -/
def apiUploadHandler (req : UploadRequest) : Nat × Bool :=
  if !req.filePresent then (400, false)
  else if !req.saveOk then (500, false)
  else if !req.uploadOk then (500, true)
  else if !req.convertOk then (500, true)
  else if !req.dbOk then (500, true)
  else (200, true)

/-- The CLI API server's `POST /upload` handler (cli/cli.go): identical
shape, but rejects `file.Size > MaxFileSizeBytes` right after reading the
form file, before saving or fragmenting anything. -/
def cliUploadHandler (req : UploadRequest) : Nat × Bool :=
  if !req.filePresent then (400, false)
  else if req.fileSize > MaxFileSizeBytes then (400, false)
  else if !req.saveOk then (500, false)
  else if !req.uploadOk then (500, true)
  else if !req.convertOk then (500, true)
  else if !req.dbOk then (500, true)
  else (200, true)

/-- A request whose collaborator calls all succeed, of the given size. -/
def okUploadReq (size : Nat) : UploadRequest :=
  ⟨true, size, true, true, true, true⟩

/-- C7: a 524,288,001-byte upload is NOT refused by the `api` package's
handler — it fragments, encrypts and stores the file (status 200, work
done), contradicting the 500 MB limit documented in the repository's
README; only the CLI server's handler refuses it before any work, and
that handler accepts exactly 524,288,000 bytes. -/
theorem oversize_upload_behavior :
    apiUploadHandler (okUploadReq 524288001) = (200, true) ∧
    cliUploadHandler (okUploadReq 524288001) = (400, false) ∧
    cliUploadHandler (okUploadReq 524288000) = (200, true) :=
  ⟨rfl, by decide, by decide⟩
